import Mathlib

/-!
Shallow embedding of `ptpython/key_bindings.py`: the buffer/cursor model used
by the key handlers, the `auto_newline` function, the Enter handlers, the
auto-pairing bindings, the predicate caches and the completion dispatch.

Text is modelled as `List Char` (Python strings are immutable character
sequences); a buffer is the text plus a cursor offset, mirroring
prompt_toolkit's `Buffer`/`Document`.
-/

namespace PtPython

/-- Python `str.isspace` restricted to the ASCII whitespace characters that can
occur in terminal input: space, tab, newline, carriage return, vertical tab,
form feed. -/
def pyIsSpace (c : Char) : Bool :=
  c = ' ' || c = '\t' || c = '\n' || c = '\r' || c = '\x0b' || c = '\x0c'

/-- Python `str.rstrip()`: drop trailing whitespace. -/
def rstrip (l : List Char) : List Char :=
  (l.reverse.dropWhile pyIsSpace).reverse

/-- The suffix of `l` after its last newline (the whole of `l` when it has no
newline). Used to model prompt_toolkit's current-line notions. -/
def afterLastNewline (l : List Char) : List Char :=
  (l.reverse.takeWhile (fun c => c ≠ '\n')).reverse

/-- prompt_toolkit `Buffer`: immutable text plus cursor offset. -/
structure Buffer where
  text : List Char
  cursor : Nat
  deriving DecidableEq

/-- `Document.text_after_cursor`. -/
def textAfterCursor (b : Buffer) : List Char :=
  b.text.drop b.cursor

/-- `Document.current_line_before_cursor`: text from the start of the cursor's
line up to the cursor. -/
def currentLineBeforeCursor (b : Buffer) : List Char :=
  afterLastNewline (b.text.take b.cursor)

/-- `Document.current_line_after_cursor`: text from the cursor to the end of
the cursor's line (never contains a newline). -/
def currentLineAfterCursor (b : Buffer) : List Char :=
  (b.text.drop b.cursor).takeWhile (fun c => c ≠ '\n')

/-- `Buffer.insert_text(s)`: insert `s` at the cursor, cursor ends after the
inserted text. -/
def insertText (b : Buffer) (s : List Char) : Buffer :=
  ⟨b.text.take b.cursor ++ s ++ b.text.drop b.cursor, b.cursor + s.length⟩

/-- Character-by-character insertion, mirroring loops in the source that call
`insert_text` once per character. -/
def insertChars : Buffer → List Char → Buffer
  | b, [] => b
  | b, c :: cs => insertChars (insertText b [c]) cs

/-- `Buffer.cursor_left(n)`: prompt_toolkit moves left by at most the length of
the current line before the cursor (it never crosses the line start). -/
def cursorLeft (b : Buffer) (n : Nat) : Buffer :=
  ⟨b.text, b.cursor - min n (currentLineBeforeCursor b).length⟩

/-- `Buffer.cursor_right(n)`: bounded by the length of the current line after
the cursor. -/
def cursorRight (b : Buffer) (n : Nat) : Buffer :=
  ⟨b.text, b.cursor + min n (currentLineAfterCursor b).length⟩

/-- `auto_newline` (key_bindings.py lines 603-632): insert a newline at the
cursor, plus indentation padding copied from the current line when the cursor
is at the end of its line. -/
def auto_newline (buffer : Buffer) : Buffer :=
  if currentLineAfterCursor buffer ≠ [] then
    -- When we are in the middle of a line. Always insert a newline.
    insertText buffer ['\n']
  else
    -- Go to new line, but also add indentation.
    let current_line := rstrip (currentLineBeforeCursor buffer)
    let b1 := insertText buffer ['\n']
    -- Unindent if the last line ends with 'pass' (the source tests
    -- `current_line.rstrip().endswith(" pass")` - note the leading space).
    let unindent := List.isSuffixOf [' ', 'p', 'a', 's', 's'] (rstrip current_line)
    -- Copy whitespace from current line.
    let current_line2 := if unindent then current_line.drop 4 else current_line
    let b2 := insertChars b1 (current_line2.takeWhile pyIsSpace)
    -- If the last line ends with a colon, add four extra spaces.
    if current_line.getLast? = some ':' then
      insertChars b2 [' ', ' ', ' ', ' ']
    else
      b2

/-- The configuration fields of `python_input` read by the Enter handler.
`accept_input_on_enter` is `none` when the option is not set. -/
structure PythonInput where
  paste_mode : Bool
  accept_input_on_enter : Option Nat
  deriving DecidableEq

/-- Source line 159: `python_input.accept_input_on_enter or 10000`. Python `or`
falls through to 10000 on any falsy value, i.e. both `None` and `0`. -/
def emptyLinesRequired (python_input : PythonInput) : Nat :=
  match python_input.accept_input_on_enter with
  | none => 10000
  | some n => if n = 0 then 10000 else n

/-- Source lines 161-165: the cursor counts as at the end when there is no text
after it, or only whitespace containing no newline
(`text == "" or (text.isspace() and not "\n" in text)`). -/
def at_the_end (b : Buffer) : Bool :=
  let text := textAfterCursor b
  text = [] || (!(text = []) && text.all pyIsSpace && !(text.contains '\n'))

/-- Source line 171-173: the condition guarding the multi-line accept branch:
`at_the_end(b) and b.document.text.replace(" ", "").endswith("\n" * (empty_lines_required - 1))`. -/
def multilineAcceptCond (python_input : PythonInput) (b : Buffer) : Bool :=
  at_the_end b &&
    List.isSuffixOf (List.replicate (emptyLinesRequired python_input - 1) '\n')
      (b.text.filter (fun c => c ≠ ' '))

/-- The accept body shared by the single-line Enter handler (lines 128-141) and
the multi-line accept branch (lines 176-181): `if b.validate():` replace the
document by the right-stripped text with the cursor at its end, then
`b.validate_and_handle()` (which submits when the new text validates).
The boolean result records whether the input was submitted. -/
def acceptHandlerStep (validate : List Char → Bool) (b : Buffer) : Buffer × Bool :=
  if validate b.text then
    let stripped := rstrip b.text
    (⟨stripped, stripped.length⟩, validate stripped)
  else
    (b, false)

/-- The multi-line Enter handler (source lines 151-183): paste mode inserts a
literal newline; the accept condition runs the accept body; anything else runs
`auto_newline`. -/
def enterMultiline (python_input : PythonInput) (validate : List Char → Bool)
    (b : Buffer) : Buffer × Bool :=
  if python_input.paste_mode then
    (insertText b ['\n'], false)
  else if multilineAcceptCond python_input b then
    acceptHandlerStep validate b
  else
    (auto_newline b, false)

/-- Modelled from the spec's wording of the multi-line accept condition, for
comparison with the code's `multilineAcceptCond`: the cursor is at the
effective end of the buffer (no text after the cursor, or only whitespace with
no embedded newline) and the buffer text with all space characters removed
ends with (required-blank-lines - 1) consecutive newline characters. -/
def specAcceptCondition (python_input : PythonInput) (b : Buffer) : Prop :=
  (textAfterCursor b = [] ∨
    ((∀ c ∈ textAfterCursor b, pyIsSpace c) ∧ textAfterCursor b ≠ [] ∧
      '\n' ∉ textAfterCursor b)) ∧
  List.replicate (emptyLinesRequired python_input - 1) '\n' <:+
    b.text.filter (fun c => c ≠ ' ')

/-! ## Auto-pairing (source lines 276-352)

The filters of the auto-pair bindings are regular expressions applied with
`re.match` (anchored at the start) to the current line before or after the
cursor; those lines never contain a newline, so each regex is translated to a
direct predicate below. -/

/-- Regex `[,)}\]]|$` matched against the current line after the cursor: the
next character on the line is one of `, ) } ]`, or the cursor is at the end of
its line (`$` only matches the empty string here, as the line has no newline). -/
def safeToPair (b : Buffer) : Bool :=
  match currentLineAfterCursor b with
  | [] => true
  | c :: _ => c = ',' || c = ')' || c = '}' || c = ']'

/-- Number of trailing dash characters of `l`. For a line accepted by the raw
string filter this is the length of the regex group `(-*)` in
`.*(r|R)["'](-*)$`: since the group is forced to run to the end of the line and
a quote is not a dash, greedy matching binds it to exactly the trailing dashes. -/
def trailingDashes (l : List Char) : Nat :=
  (l.reverse.takeWhile (fun c => c = '-')).length

/-- Regex `.*(r|R)["'](-*)$` matched against the current line before the
cursor: after removing the trailing dashes, the line ends with `r` or `R`
followed by a quote character. -/
def rawStringBefore (l : List Char) : Bool :=
  match l.reverse.dropWhile (fun c => c = '-') with
  | q :: x :: _ => (q = Char.ofNat 34 || q = Char.ofNat 39) && (x = 'r' || x = 'R')
  | _ => false

/-- Regex `.*(r|R)$` matched against the current line before the cursor: the
line ends with `r` or `R`. -/
def endsWithRawMark (l : List Char) : Bool :=
  l.getLast? = some 'r' || l.getLast? = some 'R'

/-- The closing character inserted for each opening character: brackets get
their counterpart, quotes pair with themselves. -/
def closingFor (ch : Char) : Char :=
  if ch = '(' then ')' else if ch = '[' then ']' else if ch = '{' then '}' else ch

/-- Effect of typing one of the opening characters in focused insert mode,
combining the relevant bindings (source lines 279-343). prompt_toolkit
dispatches to the last registered binding whose filter holds, so the
raw-string bindings (lines 305-334) take precedence over the plain auto-match
bindings (lines 279-302), and for quotes the cursor-move bindings
(lines 340-341) take precedence over both. When no filter holds, the default
binding inserts the typed character itself. -/
def pressOpen (ch : Char) (b : Buffer) : Buffer :=
  if ch = '(' || ch = '[' || ch = '{' then
    if rawStringBefore (currentLineBeforeCursor b) then
      -- lines 305-324: insert the pair plus the dashes of regex group 2,
      -- then `cursor_left(len(dashes) + 1)`.
      let dashes := List.replicate (trailingDashes (currentLineBeforeCursor b)) '-'
      cursorLeft (insertText b ([ch, closingFor ch] ++ dashes)) (dashes.length + 1)
    else if safeToPair b then
      cursorLeft (insertText b [ch, closingFor ch]) 1
    else
      insertText b [ch]
  else if ch = Char.ofNat 34 || ch = Char.ofNat 39 then
    if (currentLineAfterCursor b).head? = some ch then
      -- lines 340-343: just move the cursor over the already-present quote.
      cursorRight b 1
    else if endsWithRawMark (currentLineBeforeCursor b) then
      -- lines 326-334: raw-string prefix, pair the quotes.
      cursorLeft (insertText b [ch, ch]) 1
    else if safeToPair b then
      cursorLeft (insertText b [ch, ch]) 1
    else
      insertText b [ch]
  else
    insertText b [ch]

/-! ## Predicate caches (source lines 242-274) -/

/-- A compiled regular-expression matcher, as produced by `re.compile`; its
matching behaviour is fully determined by the pattern it was compiled from. -/
structure Matcher where
  pattern : String
  deriving DecidableEq

/-- `re.compile(pattern)`. -/
def reCompile (pattern : String) : Matcher :=
  ⟨pattern⟩

/-- The two module-level memoization dictionaries `_preceding_text_cache` and
`_following_text_cache`, modelled as association lists keyed by the exact
pattern string. -/
structure MatchCaches where
  preceding : List (String × Matcher)
  following : List (String × Matcher)
  deriving DecidableEq

/-- Dictionary lookup by exact string key (`cache[pattern]`, raising `KeyError`
on a miss, modelled as `none`). -/
def lookupCache (pattern : String) : List (String × Matcher) → Option Matcher
  | [] => none
  | (q, m) :: rest => if q = pattern then some m else lookupCache pattern rest

/-- Result of one call to `preceding_text`/`following_text`: the returned
condition (carrying its compiled matcher), the updated caches, and whether the
call compiled the pattern. -/
structure CondResult where
  cond : Matcher
  caches : MatchCaches
  compiled : Bool
  deriving DecidableEq

/-- `preceding_text(pattern)` (source lines 245-258): return the cached
condition when the pattern is a key of `_preceding_text_cache`; otherwise
compile the pattern, build the condition, store it under the pattern and
return it. -/
def preceding_text (pattern : String) (st : MatchCaches) : CondResult :=
  match lookupCache pattern st.preceding with
  | some cond => ⟨cond, st, false⟩
  | none =>
    let m := reCompile pattern
    ⟨m, { st with preceding := (pattern, m) :: st.preceding }, true⟩

/-- `following_text(pattern)` (source lines 261-274): same memoization against
`_following_text_cache`. -/
def following_text (pattern : String) (st : MatchCaches) : CondResult :=
  match lookupCache pattern st.following with
  | some cond => ⟨cond, st, false⟩
  | none =>
    let m := reCompile pattern
    ⟨m, { st with following := (pattern, m) :: st.following }, true⟩

/-! ## Completion dispatch (source lines 354-446) -/

/-- Outcome of the tab handler when no completion menu is open: either a
completion is applied directly to the buffer, or completion is started
(opening the menu), with `insert_common_part` as configured. -/
inductive TabOutcome where
  | applyCompletion (completion : List Char)
  | startCompletion (insert_common_part : Bool)
  deriving DecidableEq

/-- Body of the tab/c-space handler guarded by
`~has_completions & auto_complete_only_option_on_tab` (source lines 432-446):
compute the full completion list synchronously; apply the completion when it
is the only one, else `start_completion(insert_common_part=True)`.
Completions are identified with their replacement texts. -/
def tab_only_option (completions : List (List Char)) : TabOutcome :=
  if completions.length = 1 then
    TabOutcome.applyCompletion (completions.headD [])
  else
    TabOutcome.startCompletion true

/-- The binding's filter: it fires exactly when no completion menu is open and
the only-option-on-tab flag is enabled (plus focus conditions abstracted away). -/
def tabDispatchNoMenu (only_option_on_tab : Bool) (has_completions : Bool)
    (completions : List (List Char)) : Option TabOutcome :=
  if !has_completions && only_option_on_tab then
    some (tab_only_option completions)
  else
    none

/-- A jedi completion: a symbol name with its kind. -/
structure JediCompletion where
  name : List Char
  type : List Char
  deriving DecidableEq

/-- `is_callable` (source lines 354-357). The jedi query
`Interpreter(text, [locals()]).complete()` is modelled as a fallible external
function; the source wraps it in no try/except, so an exceptional result
propagates (`Except.error`). On success: find the completion named `text`;
return whether its type is `class` or `function`, and `None` when there is no
match. -/
def is_callable (complete : List Char → Except Unit (List JediCompletion))
    (text : List Char) : Except Unit (Option Bool) :=
  match complete text with
  | Except.error e => Except.error e
  | Except.ok completions =>
    match completions.find? (fun i => i.name = text) with
    | some m =>
      Except.ok (some (m.type = ['c', 'l', 'a', 's', 's'] ||
        m.type = ['f', 'u', 'n', 'c', 't', 'i', 'o', 'n']))
    | none => Except.ok none

/-- Python truthiness of `is_callable`'s result: `None` and `False` are falsy. -/
def truthy : Option Bool → Bool
  | some b => b
  | none => false

/-- The auto-parenthesis step run after applying a completion (source lines
390-393 and the identical copies at 402-405, 414-417, 426-429, 441-444):
`if is_callable(completion.text) or is_callable(b.document.get_word_under_cursor()):
insert "()" and move the cursor between the parens`. Python `or`
short-circuits; an exception from either `is_callable` call propagates out of
the handler. -/
def maybeAppendParens (complete : List Char → Except Unit (List JediCompletion))
    (auto_parens : Bool) (completionText wordUnderCursor : List Char)
    (b : Buffer) : Except Unit Buffer :=
  if auto_parens then
    match is_callable complete completionText with
    | Except.error e => Except.error e
    | Except.ok r1 =>
      if truthy r1 then
        Except.ok (cursorLeft (insertText b ['(', ')']) 1)
      else
        match is_callable complete wordUnderCursor with
        | Except.error e => Except.error e
        | Except.ok r2 =>
          if truthy r2 then
            Except.ok (cursorLeft (insertText b ['(', ')']) 1)
          else
            Except.ok b
  else
    Except.ok b

/-! ## Helper lemmas -/

theorem insertText_insertText (b : Buffer) (s₁ s₂ : List Char) :
    insertText (insertText b s₁) s₂ = insertText b (s₁ ++ s₂) := by
  rcases b with ⟨t, c⟩
  unfold insertText
  rcases le_or_lt c t.length with hc | hc
  · have h1 : (t.take c ++ s₁).length = c + s₁.length := by
      simp [List.length_take_of_le hc]
    rw [List.take_left' h1, List.drop_left' h1]
    simp [List.append_assoc, Nat.add_assoc]
  · have h2 : t.take c = t := List.take_of_length_le (Nat.le_of_lt hc)
    have h3 : t.drop c = [] := List.drop_eq_nil_of_le (Nat.le_of_lt hc)
    have h4 : (t ++ s₁).length ≤ c + s₁.length := by
      simp; omega
    simp [h2, h3, List.take_of_length_le h4, List.drop_of_length_le h4, Nat.add_assoc]

theorem insertChars_eq_insertText (s : List Char) :
    ∀ b : Buffer, insertChars b s = insertText b s := by
  induction s with
  | nil => intro b; simp [insertChars, insertText]
  | cons a s ih =>
    intro b
    rw [insertChars, ih, insertText_insertText]
    rfl

theorem takeWhile_append_of_all {p : Char → Bool} (l₁ l₂ : List Char)
    (h : ∀ c ∈ l₁, p c = true) :
    (l₁ ++ l₂).takeWhile p = l₁ ++ l₂.takeWhile p := by
  induction l₁ with
  | nil => simp
  | cons a l ih =>
    have ha : p a = true := h a (List.mem_cons_self a l)
    simp [List.takeWhile_cons, ha, ih (fun c hc => h c (List.mem_cons_of_mem a hc))]

theorem dropWhile_append_of_all {p : Char → Bool} (l₁ l₂ : List Char)
    (h : ∀ c ∈ l₁, p c = true) :
    (l₁ ++ l₂).dropWhile p = l₂.dropWhile p := by
  induction l₁ with
  | nil => simp
  | cons a l ih =>
    have ha : p a = true := h a (List.mem_cons_self a l)
    simp [List.dropWhile_cons, ha, ih (fun c hc => h c (List.mem_cons_of_mem a hc))]

theorem afterLastNewline_append (l s : List Char) (hs : ∀ c ∈ s, c ≠ '\n') :
    afterLastNewline (l ++ s) = afterLastNewline l ++ s := by
  unfold afterLastNewline
  rw [List.reverse_append,
    takeWhile_append_of_all s.reverse l.reverse
      (by intro c hc; simp only [List.mem_reverse] at hc; simp [hs c hc]),
    List.reverse_append, List.reverse_reverse]

theorem currentLineBeforeCursor_insertText (b : Buffer) (s : List Char)
    (hc : b.cursor ≤ b.text.length) (hs : ∀ c ∈ s, c ≠ '\n') :
    currentLineBeforeCursor (insertText b s) = currentLineBeforeCursor b ++ s := by
  unfold currentLineBeforeCursor insertText
  have h2 : (b.text.take b.cursor ++ s).length = b.cursor + s.length := by
    simp [List.length_take_of_le hc]
  rw [show b.text.take b.cursor ++ s ++ b.text.drop b.cursor
      = (b.text.take b.cursor ++ s) ++ b.text.drop b.cursor from rfl,
    List.take_left' h2]
  exact afterLastNewline_append _ s hs

theorem cursorLeft_insertText (b : Buffer) (s : List Char) (k : Nat)
    (hc : b.cursor ≤ b.text.length) (hs : ∀ c ∈ s, c ≠ '\n') (hk : k ≤ s.length) :
    cursorLeft (insertText b s) k =
      ⟨b.text.take b.cursor ++ s ++ b.text.drop b.cursor, b.cursor + s.length - k⟩ := by
  unfold cursorLeft
  rw [currentLineBeforeCursor_insertText b s hc hs]
  simp only [insertText]
  have hk2 : k ⊓ ((currentLineBeforeCursor b).length + s.length) = k := by omega
  simp [hk2]

theorem dropWhile_dropWhile (p : Char → Bool) (l : List Char) :
    (l.dropWhile p).dropWhile p = l.dropWhile p := by
  induction l with
  | nil => simp
  | cons a l ih =>
    by_cases h : p a = true
    · simp [List.dropWhile_cons, h, ih]
    · simp [List.dropWhile_cons, h]

theorem rstrip_rstrip (l : List Char) : rstrip (rstrip l) = rstrip l := by
  unfold rstrip
  rw [List.reverse_reverse, dropWhile_dropWhile]

theorem getLast?_of_isSuffix {l₁ l₂ : List Char} (h : l₁ <:+ l₂) (hne : l₁ ≠ []) :
    l₂.getLast? = l₁.getLast? := by
  obtain ⟨u, rfl⟩ := h
  rw [List.getLast?_append]
  cases h' : l₁.getLast? with
  | none => exact absurd (List.getLast?_eq_none_iff.mp h') hne
  | some a => rfl

theorem auto_newline_eq_insertText (b : Buffer) (hA : currentLineAfterCursor b = []) :
    auto_newline b = insertText b ('\n' ::
      ((if List.isSuffixOf [' ', 'p', 'a', 's', 's'] (rstrip (rstrip (currentLineBeforeCursor b)))
          then (rstrip (currentLineBeforeCursor b)).drop 4
          else rstrip (currentLineBeforeCursor b)).takeWhile pyIsSpace ++
        (if (rstrip (currentLineBeforeCursor b)).getLast? = some ':'
          then [' ', ' ', ' ', ' '] else []))) := by
  rw [auto_newline, if_neg (by simp [hA])]
  simp only [insertChars_eq_insertText, insertText_insertText]
  split
  · simp [List.append_assoc]
  · simp [List.append_assoc]

/-! ## Claim theorems -/

/-- Claim C3, counterexample. The claim says a bare newline is inserted
whenever any non-empty text follows the cursor, but `auto_newline` branches on
the current *line* after the cursor: with text `"    x\ny"` and the cursor at
the end of the first line, text does follow the cursor, yet the code copies
the indentation of the current line (inserting `"\n    "`), not a bare
newline. -/
theorem auto_newline_midline_claim_cex :
    textAfterCursor ⟨[' ', ' ', ' ', ' ', 'x', '\n', 'y'], 5⟩ ≠ [] ∧
    auto_newline ⟨[' ', ' ', ' ', ' ', 'x', '\n', 'y'], 5⟩ ≠
      insertText ⟨[' ', ' ', ' ', ' ', 'x', '\n', 'y'], 5⟩ ['\n'] ∧
    auto_newline ⟨[' ', ' ', ' ', ' ', 'x', '\n', 'y'], 5⟩ =
      ⟨[' ', ' ', ' ', ' ', 'x', '\n', ' ', ' ', ' ', ' ', '\n', 'y'], 10⟩ := by
  decide

/-- Claim C3, amended: for every buffer state in which there is non-empty text
after the cursor on the current line, `auto_newline` inserts exactly one bare
newline character at the cursor and performs no indentation copying, no
unindent, and no colon-triggered extra spaces. -/
theorem auto_newline_midline_bare (b : Buffer)
    (h : currentLineAfterCursor b ≠ []) :
    auto_newline b = insertText b ['\n'] := by
  rw [auto_newline, if_pos h]

/-- Witness for `auto_newline_midline_bare` at text `"ab"`, cursor 1. -/
theorem auto_newline_midline_bare_witness :
    currentLineAfterCursor ⟨['a', 'b'], 1⟩ ≠ [] ∧
    auto_newline ⟨['a', 'b'], 1⟩ = insertText ⟨['a', 'b'], 1⟩ ['\n'] :=
  ⟨by decide, auto_newline_midline_bare ⟨['a', 'b'], 1⟩ (by decide)⟩

/-- Claim C4, counterexample. The claim triggers the unindent on every line
ending with the keyword `pass`, but the source tests `endswith(" pass")` with
a leading space: at the tab-indented line `"\tpass"` the keyword ends the line
yet the code copies the tab unchanged (result `"\tpass\n\t"`), instead of
dropping the first four characters as the claim prescribes (which would give
`"\tpass\n"`). -/
theorem auto_newline_pass_claim_cex :
    currentLineAfterCursor ⟨['\t', 'p', 'a', 's', 's'], 5⟩ = [] ∧
    List.isSuffixOf ['p', 'a', 's', 's']
      (rstrip (currentLineBeforeCursor ⟨['\t', 'p', 'a', 's', 's'], 5⟩)) = true ∧
    auto_newline ⟨['\t', 'p', 'a', 's', 's'], 5⟩ ≠
      insertText ⟨['\t', 'p', 'a', 's', 's'], 5⟩
        ('\n' :: ((rstrip (currentLineBeforeCursor ⟨['\t', 'p', 'a', 's', 's'], 5⟩)).drop 4).takeWhile
          pyIsSpace) ∧
    auto_newline ⟨['\t', 'p', 'a', 's', 's'], 5⟩ =
      ⟨['\t', 'p', 'a', 's', 's', '\n', '\t'], 7⟩ := by
  decide

/-- Claim C4, amended: with no text after the cursor on the current line,
whenever the right-trimmed current line ends with the five characters
`" pass"` (a space followed by `pass`), `auto_newline` drops the first four
characters of that line before copying its leading whitespace into the new
line; in particular a line of 8 spaces followed by `pass` yields a new line
indented by exactly 4 spaces (see the witness). -/
theorem auto_newline_pass_unindent (b : Buffer)
    (hA : currentLineAfterCursor b = [])
    (hp : List.isSuffixOf [' ', 'p', 'a', 's', 's']
      (rstrip (currentLineBeforeCursor b)) = true) :
    auto_newline b = insertText b
      ('\n' :: ((rstrip (currentLineBeforeCursor b)).drop 4).takeWhile pyIsSpace) := by
  have hsuf : [' ', 'p', 'a', 's', 's'] <:+ rstrip (currentLineBeforeCursor b) :=
    List.isSuffixOf_iff_suffix.mp hp
  have hlast : (rstrip (currentLineBeforeCursor b)).getLast? = some 's' := by
    rw [getLast?_of_isSuffix hsuf (by simp)]
    rfl
  rw [auto_newline_eq_insertText b hA, rstrip_rstrip, hp]
  simp [hlast]

/-- Witness for `auto_newline_pass_unindent` at the line of 8 spaces followed
by `pass`: the new line is indented by exactly 4 spaces. -/
theorem auto_newline_pass_unindent_witness :
    currentLineAfterCursor
      ⟨[' ', ' ', ' ', ' ', ' ', ' ', ' ', ' ', 'p', 'a', 's', 's'], 12⟩ = [] ∧
    List.isSuffixOf [' ', 'p', 'a', 's', 's']
      (rstrip (currentLineBeforeCursor
        ⟨[' ', ' ', ' ', ' ', ' ', ' ', ' ', ' ', 'p', 'a', 's', 's'], 12⟩)) = true ∧
    auto_newline ⟨[' ', ' ', ' ', ' ', ' ', ' ', ' ', ' ', 'p', 'a', 's', 's'], 12⟩ =
      insertText ⟨[' ', ' ', ' ', ' ', ' ', ' ', ' ', ' ', 'p', 'a', 's', 's'], 12⟩
        ('\n' :: ((rstrip (currentLineBeforeCursor
          ⟨[' ', ' ', ' ', ' ', ' ', ' ', ' ', ' ', 'p', 'a', 's', 's'], 12⟩)).drop 4).takeWhile
          pyIsSpace) ∧
    (auto_newline
        ⟨[' ', ' ', ' ', ' ', ' ', ' ', ' ', ' ', 'p', 'a', 's', 's'], 12⟩).text =
      [' ', ' ', ' ', ' ', ' ', ' ', ' ', ' ', 'p', 'a', 's', 's', '\n', ' ', ' ', ' ', ' '] :=
  ⟨by decide, by decide,
    auto_newline_pass_unindent _ (by decide) (by decide), by decide⟩

/-- Claim C10: `auto_newline` only inserts: the resulting text is the original
text before the cursor, an inserted string starting with a newline, and the
original text after the cursor, with the cursor at the end of the inserted
string. -/
theorem auto_newline_frame (b : Buffer) (hc : b.cursor ≤ b.text.length) :
    ∃ s : List Char, s.head? = some '\n' ∧
      (auto_newline b).text = b.text.take b.cursor ++ s ++ b.text.drop b.cursor ∧
      (auto_newline b).cursor = b.cursor + s.length := by
  by_cases hA : currentLineAfterCursor b = []
  · rw [auto_newline_eq_insertText b hA]
    refine ⟨_, ?_, rfl, rfl⟩
    rfl
  · rw [auto_newline, if_pos hA]
    exact ⟨['\n'], rfl, rfl, rfl⟩

/-- Witness for `auto_newline_frame` at text `"a"`, cursor 1. -/
theorem auto_newline_frame_witness :
    (⟨['a'], 1⟩ : Buffer).cursor ≤ (⟨['a'], 1⟩ : Buffer).text.length ∧
    ∃ s : List Char, s.head? = some '\n' ∧
      (auto_newline ⟨['a'], 1⟩).text =
        (⟨['a'], 1⟩ : Buffer).text.take (⟨['a'], 1⟩ : Buffer).cursor ++ s ++
          (⟨['a'], 1⟩ : Buffer).text.drop (⟨['a'], 1⟩ : Buffer).cursor ∧
      (auto_newline ⟨['a'], 1⟩).cursor = (⟨['a'], 1⟩ : Buffer).cursor + s.length :=
  ⟨by decide, auto_newline_frame ⟨['a'], 1⟩ (by decide)⟩

theorem pressOpen_bracket_def (b : Buffer) (ch : Char)
    (hch : ch = '(' ∨ ch = '[' ∨ ch = '{') :
    pressOpen ch b =
      (if rawStringBefore (currentLineBeforeCursor b) then
        cursorLeft (insertText b ([ch, closingFor ch] ++
          List.replicate (trailingDashes (currentLineBeforeCursor b)) '-'))
          ((List.replicate (trailingDashes (currentLineBeforeCursor b)) '-').length + 1)
      else if safeToPair b then
        cursorLeft (insertText b [ch, closingFor ch]) 1
      else
        insertText b [ch]) := by
  have h : (ch = '(' || ch = '[' || ch = '{') = true := by
    rcases hch with rfl | rfl | rfl <;> decide
  unfold pressOpen
  rw [if_pos h]

theorem pressOpen_quote_def (b : Buffer) (ch : Char)
    (hch : ch = Char.ofNat 34 ∨ ch = Char.ofNat 39) :
    pressOpen ch b =
      (if (currentLineAfterCursor b).head? = some ch then
        cursorRight b 1
      else if endsWithRawMark (currentLineBeforeCursor b) then
        cursorLeft (insertText b [ch, ch]) 1
      else if safeToPair b then
        cursorLeft (insertText b [ch, ch]) 1
      else
        insertText b [ch]) := by
  have h1 : (ch = '(' || ch = '[' || ch = '{') = false := by
    rcases hch with rfl | rfl <;> decide
  have h2 : (ch = Char.ofNat 34 || ch = Char.ofNat 39) = true := by
    rcases hch with rfl | rfl <;> decide
  unfold pressOpen
  rw [if_neg (by simp [h1]), if_pos h2]

theorem cursorLeft_one_insert_pair (b : Buffer) (c₁ c₂ : Char)
    (hc : b.cursor ≤ b.text.length) (h1 : c₁ ≠ '\n') (h2 : c₂ ≠ '\n') :
    cursorLeft (insertText b [c₁, c₂]) 1 =
      ⟨b.text.take b.cursor ++ [c₁, c₂] ++ b.text.drop b.cursor, b.cursor + 1⟩ := by
  rw [cursorLeft_insertText b [c₁, c₂] 1 hc
    (by intro c hm; simp at hm; rcases hm with rfl | rfl <;> assumption) (by simp)]
  simp only [List.length_cons, List.length_nil]
  congr 1

theorem pressOpen_bracket_safe (b : Buffer) (ch : Char)
    (hch : ch = '(' ∨ ch = '[' ∨ ch = '{')
    (hc : b.cursor ≤ b.text.length)
    (hsafe : safeToPair b = true)
    (hnr : rawStringBefore (currentLineBeforeCursor b) = false ∨
      trailingDashes (currentLineBeforeCursor b) = 0) :
    pressOpen ch b =
      ⟨b.text.take b.cursor ++ [ch, closingFor ch] ++ b.text.drop b.cursor,
        b.cursor + 1⟩ := by
  have hchn : ch ≠ '\n' := by rcases hch with rfl | rfl | rfl <;> decide
  have hcln : closingFor ch ≠ '\n' := by rcases hch with rfl | rfl | rfl <;> decide
  rw [pressOpen_bracket_def b ch hch]
  by_cases hrb : rawStringBefore (currentLineBeforeCursor b) = true
  · have hn : trailingDashes (currentLineBeforeCursor b) = 0 := by
      rcases hnr with h' | h'
      · rw [h'] at hrb; exact absurd hrb (by decide)
      · exact h'
    rw [if_pos hrb, hn]
    simp only [List.replicate_zero, List.append_nil, List.length_nil, Nat.zero_add]
    exact cursorLeft_one_insert_pair b ch (closingFor ch) hc hchn hcln
  · rw [if_neg hrb, if_pos hsafe]
    exact cursorLeft_one_insert_pair b ch (closingFor ch) hc hchn hcln

theorem safeToPair_cases (b : Buffer) (hsafe : safeToPair b = true) :
    currentLineAfterCursor b = [] ∨
      ∃ a l, currentLineAfterCursor b = a :: l ∧
        (a = ',' ∨ a = ')' ∨ a = '}' ∨ a = ']') := by
  unfold safeToPair at hsafe
  cases hl : currentLineAfterCursor b with
  | nil => exact Or.inl rfl
  | cons a l =>
    rw [hl] at hsafe
    right
    refine ⟨a, l, rfl, ?_⟩
    simp at hsafe
    tauto

theorem pressOpen_quote_safe (b : Buffer) (ch : Char)
    (hch : ch = Char.ofNat 34 ∨ ch = Char.ofNat 39)
    (hc : b.cursor ≤ b.text.length)
    (hsafe : safeToPair b = true) :
    pressOpen ch b =
      ⟨b.text.take b.cursor ++ [ch, closingFor ch] ++ b.text.drop b.cursor,
        b.cursor + 1⟩ := by
  have hchn : ch ≠ '\n' := by rcases hch with rfl | rfl <;> decide
  have hcf : closingFor ch = ch := by rcases hch with rfl | rfl <;> decide
  rw [pressOpen_quote_def b ch hch]
  have hhead : ¬((currentLineAfterCursor b).head? = some ch) := by
    intro heq
    rcases safeToPair_cases b hsafe with h0 | ⟨a, l, hl, hset⟩
    · rw [h0] at heq; simp at heq
    · rw [hl] at heq
      simp at heq
      subst heq
      rcases hch with rfl | rfl <;>
        rcases hset with h | h | h | h <;> exact absurd h (by decide)
  rw [if_neg hhead]
  by_cases hrm : endsWithRawMark (currentLineBeforeCursor b) = true
  · rw [if_pos hrm, hcf]
    exact cursorLeft_one_insert_pair b ch ch hc hchn hchn
  · rw [if_neg hrm, if_pos hsafe, hcf]
    exact cursorLeft_one_insert_pair b ch ch hc hchn hchn

theorem trailingDashes_decomp (pre : List Char) (x q : Char) (n : Nat)
    (hq : q ≠ '-') :
    trailingDashes (pre ++ [x, q] ++ List.replicate n '-') = n := by
  unfold trailingDashes
  rw [List.reverse_append, List.reverse_replicate,
    takeWhile_append_of_all _ _ (by intro c hc; simp [List.eq_of_mem_replicate hc]),
    List.reverse_append]
  have : ([x, q].reverse : List Char) ++ pre.reverse = q :: x :: pre.reverse := rfl
  rw [this, List.takeWhile_cons, if_neg (by simp [hq])]
  simp

theorem rawStringBefore_decomp (pre : List Char) (x q : Char) (n : Nat)
    (hx : x = 'r' ∨ x = 'R') (hq : q = Char.ofNat 34 ∨ q = Char.ofNat 39) :
    rawStringBefore (pre ++ [x, q] ++ List.replicate n '-') = true := by
  have hqd : q ≠ '-' := by rcases hq with rfl | rfl <;> decide
  unfold rawStringBefore
  rw [List.reverse_append, List.reverse_replicate,
    dropWhile_append_of_all _ _ (by intro c hc; simp [List.eq_of_mem_replicate hc]),
    List.reverse_append]
  have : ([x, q].reverse : List Char) ++ pre.reverse = q :: x :: pre.reverse := rfl
  rw [this, List.dropWhile_cons, if_neg (by simp [hqd])]
  rcases hx with rfl | rfl <;> rcases hq with rfl | rfl <;> rfl

/-- Claim C1, counterexample. At a buffer whose line before the cursor is
`r"-` and with nothing after the cursor, the safe-to-pair condition holds, yet
typing `(` does not insert exactly the two-character pair: the raw-string
binding (registered later, so it wins the dispatch) also appends the trailing
dash, giving `()-`. -/
theorem auto_pair_safe_claim_cex :
    safeToPair ⟨['r', Char.ofNat 34, '-'], 3⟩ = true ∧
    pressOpen '(' ⟨['r', Char.ofNat 34, '-'], 3⟩ ≠
      ⟨['r', Char.ofNat 34, '-', '(', ')'], 4⟩ ∧
    pressOpen '(' ⟨['r', Char.ofNat 34, '-'], 3⟩ =
      ⟨['r', Char.ofNat 34, '-', '(', ')', '-'], 4⟩ := by
  decide

/-- Claim C1, amended: in every safe-to-pair state (next character on the line
one of `, ) } ]`, or end of line), typing one of `( [ { " '` inserts exactly
the matching two-character pair with the cursor between the two characters -
except that for the three brackets, when the line before the cursor matches
the raw-string prefix `r`/`R` + quote + one or more dashes, the raw-string
binding takes precedence and appends the dashes as well (see
`auto_pair_raw_string_dashes`). -/
theorem auto_pair_safe_inserts_pair (b : Buffer) (ch : Char)
    (hc : b.cursor ≤ b.text.length)
    (hch : ch = '(' ∨ ch = '[' ∨ ch = '{' ∨ ch = Char.ofNat 34 ∨ ch = Char.ofNat 39)
    (hsafe : safeToPair b = true)
    (hnr : rawStringBefore (currentLineBeforeCursor b) = false ∨
      trailingDashes (currentLineBeforeCursor b) = 0 ∨
      ch = Char.ofNat 34 ∨ ch = Char.ofNat 39) :
    pressOpen ch b =
      ⟨b.text.take b.cursor ++ [ch, closingFor ch] ++ b.text.drop b.cursor,
        b.cursor + 1⟩ := by
  rcases hch with h | h | h | h | h
  · subst h
    refine pressOpen_bracket_safe b '(' (Or.inl rfl) hc hsafe ?_
    rcases hnr with h' | h' | h' | h'
    exacts [Or.inl h', Or.inr h', absurd h' (by decide), absurd h' (by decide)]
  · subst h
    refine pressOpen_bracket_safe b '[' (Or.inr (Or.inl rfl)) hc hsafe ?_
    rcases hnr with h' | h' | h' | h'
    exacts [Or.inl h', Or.inr h', absurd h' (by decide), absurd h' (by decide)]
  · subst h
    refine pressOpen_bracket_safe b '{' (Or.inr (Or.inr rfl)) hc hsafe ?_
    rcases hnr with h' | h' | h' | h'
    exacts [Or.inl h', Or.inr h', absurd h' (by decide), absurd h' (by decide)]
  · subst h
    exact pressOpen_quote_safe b _ (Or.inl rfl) hc hsafe
  · subst h
    exact pressOpen_quote_safe b _ (Or.inr rfl) hc hsafe

/-- Witness for `auto_pair_safe_inserts_pair`: empty buffer, typing `(`. -/
theorem auto_pair_safe_inserts_pair_witness :
    (⟨[], 0⟩ : Buffer).cursor ≤ (⟨[], 0⟩ : Buffer).text.length ∧
    safeToPair ⟨[], 0⟩ = true ∧
    rawStringBefore (currentLineBeforeCursor ⟨[], 0⟩) = false ∧
    pressOpen '(' ⟨[], 0⟩ =
      ⟨(⟨[], 0⟩ : Buffer).text.take (⟨[], 0⟩ : Buffer).cursor ++
          ['(', closingFor '('] ++ (⟨[], 0⟩ : Buffer).text.drop (⟨[], 0⟩ : Buffer).cursor,
        (⟨[], 0⟩ : Buffer).cursor + 1⟩ :=
  ⟨by decide, by decide, by decide,
    auto_pair_safe_inserts_pair ⟨[], 0⟩ '(' (by decide) (Or.inl rfl) (by decide)
      (Or.inl (by decide))⟩

/-- Claim C7: when the line before the cursor is anything followed by `r`/`R`,
a quote and `n` dashes, typing an opening bracket inserts the matching pair
followed by exactly `n` dashes, with the cursor right after the opening
bracket (before the closing bracket and the dashes). -/
theorem auto_pair_raw_string_dashes (b : Buffer) (ch x q : Char)
    (pre : List Char) (n : Nat)
    (hc : b.cursor ≤ b.text.length)
    (hch : ch = '(' ∨ ch = '[' ∨ ch = '{')
    (hx : x = 'r' ∨ x = 'R')
    (hq : q = Char.ofNat 34 ∨ q = Char.ofNat 39)
    (hline : currentLineBeforeCursor b = pre ++ [x, q] ++ List.replicate n '-') :
    pressOpen ch b =
      ⟨b.text.take b.cursor ++ [ch, closingFor ch] ++ List.replicate n '-' ++
          b.text.drop b.cursor,
        b.cursor + 1⟩ := by
  have hqd : q ≠ '-' := by rcases hq with rfl | rfl <;> decide
  have hrb : rawStringBefore (currentLineBeforeCursor b) = true := by
    rw [hline]; exact rawStringBefore_decomp pre x q n hx hq
  have hn : trailingDashes (currentLineBeforeCursor b) = n := by
    rw [hline]; exact trailingDashes_decomp pre x q n hqd
  have hchn : ch ≠ '\n' := by rcases hch with rfl | rfl | rfl <;> decide
  have hcln : closingFor ch ≠ '\n' := by rcases hch with rfl | rfl | rfl <;> decide
  have hs : ∀ c ∈ [ch, closingFor ch] ++ List.replicate n '-', c ≠ '\n' := by
    intro c hm
    rcases List.mem_append.mp hm with hm' | hm'
    · simp at hm'; rcases hm' with rfl | rfl <;> assumption
    · rw [List.eq_of_mem_replicate hm']; decide
  have hk : (List.replicate n '-').length + 1 ≤
      ([ch, closingFor ch] ++ List.replicate n '-').length := by
    simp
  rw [pressOpen_bracket_def b ch hch, if_pos hrb, hn,
    cursorLeft_insertText b _ _ hc hs hk]
  congr 1
  · simp [List.append_assoc]
  · simp only [List.length_append, List.length_replicate, List.length_cons,
      List.length_nil]
    omega

/-- Witness for `auto_pair_raw_string_dashes`: line `R'--` before the cursor,
typing `{` gives `R'--{}--` with the cursor after the opening brace. -/
theorem auto_pair_raw_string_dashes_witness :
    (⟨['R', Char.ofNat 39, '-', '-'], 4⟩ : Buffer).cursor ≤
      (⟨['R', Char.ofNat 39, '-', '-'], 4⟩ : Buffer).text.length ∧
    currentLineBeforeCursor ⟨['R', Char.ofNat 39, '-', '-'], 4⟩ =
      [] ++ ['R', Char.ofNat 39] ++ List.replicate 2 '-' ∧
    pressOpen '{' ⟨['R', Char.ofNat 39, '-', '-'], 4⟩ =
      ⟨(⟨['R', Char.ofNat 39, '-', '-'], 4⟩ : Buffer).text.take
            (⟨['R', Char.ofNat 39, '-', '-'], 4⟩ : Buffer).cursor ++
          ['{', closingFor '{'] ++ List.replicate 2 '-' ++
          (⟨['R', Char.ofNat 39, '-', '-'], 4⟩ : Buffer).text.drop
            (⟨['R', Char.ofNat 39, '-', '-'], 4⟩ : Buffer).cursor,
        (⟨['R', Char.ofNat 39, '-', '-'], 4⟩ : Buffer).cursor + 1⟩ ∧
    pressOpen '{' ⟨['R', Char.ofNat 39, '-', '-'], 4⟩ =
      ⟨['R', Char.ofNat 39, '-', '-', '{', '}', '-', '-'], 5⟩ :=
  ⟨by decide, by decide,
    auto_pair_raw_string_dashes ⟨['R', Char.ofNat 39, '-', '-'], 4⟩ '{' 'R'
      (Char.ofNat 39) [] 2 (by decide) (Or.inr (Or.inr rfl)) (Or.inr rfl)
      (Or.inr rfl) (by decide),
    by decide⟩

/-- Claim C2: in multi-line mode with paste mode off, Enter takes the accept
path (validate, strip trailing whitespace, submit) exactly when the cursor is
at the effective end of the buffer and the space-stripped text ends with
(required-blank-lines - 1) newlines, where required-blank-lines is the
configured `accept_input_on_enter` value or the large default 10000; in every
other case it performs `auto_newline`. `specAcceptCondition` states the
condition in the spec's words; the code's test is `multilineAcceptCond`. -/
theorem enter_multiline_accept_iff (python_input : PythonInput)
    (validate : List Char → Bool) (b : Buffer)
    (hpaste : python_input.paste_mode = false) :
    (specAcceptCondition python_input b ↔
      multilineAcceptCond python_input b = true) ∧
    (specAcceptCondition python_input b →
      enterMultiline python_input validate b = acceptHandlerStep validate b) ∧
    (¬specAcceptCondition python_input b →
      enterMultiline python_input validate b = (auto_newline b, false)) := by
  have hend : at_the_end b = true ↔
      (textAfterCursor b = [] ∨
        ((∀ c ∈ textAfterCursor b, pyIsSpace c) ∧ textAfterCursor b ≠ [] ∧
          '\n' ∉ textAfterCursor b)) := by
    unfold at_the_end
    simp only [Bool.or_eq_true, Bool.and_eq_true, Bool.not_eq_true',
      decide_eq_true_eq, decide_eq_false_iff_not, List.all_eq_true]
    have hcont : ((textAfterCursor b).contains '\n' = false) ↔
        '\n' ∉ textAfterCursor b := by simp
    rw [hcont]
    tauto
  have hiff : specAcceptCondition python_input b ↔
      multilineAcceptCond python_input b = true := by
    unfold specAcceptCondition multilineAcceptCond
    rw [Bool.and_eq_true]
    exact and_congr hend.symm List.isSuffixOf_iff_suffix.symm
  refine ⟨hiff, ?_, ?_⟩
  · intro hspec
    simp [enterMultiline, hpaste, hiff.mp hspec]
  · intro hn
    have hb : multilineAcceptCond python_input b = false := by
      rcases Bool.eq_false_or_eq_true (multilineAcceptCond python_input b) with h | h
      · exact absurd (hiff.mpr h) hn
      · exact h
    simp [enterMultiline, hpaste, hb]

/-- Witness for `enter_multiline_accept_iff`: required blank lines 2, buffer
`"x\n"` with the cursor at the end, always-true validator. -/
theorem enter_multiline_accept_iff_witness :
    (⟨false, some 2⟩ : PythonInput).paste_mode = false ∧
    ((specAcceptCondition ⟨false, some 2⟩ ⟨['x', '\n'], 2⟩ ↔
        multilineAcceptCond ⟨false, some 2⟩ ⟨['x', '\n'], 2⟩ = true) ∧
      (specAcceptCondition ⟨false, some 2⟩ ⟨['x', '\n'], 2⟩ →
        enterMultiline ⟨false, some 2⟩ (fun _ => true) ⟨['x', '\n'], 2⟩ =
          acceptHandlerStep (fun _ => true) ⟨['x', '\n'], 2⟩) ∧
      (¬specAcceptCondition ⟨false, some 2⟩ ⟨['x', '\n'], 2⟩ →
        enterMultiline ⟨false, some 2⟩ (fun _ => true) ⟨['x', '\n'], 2⟩ =
          (auto_newline ⟨['x', '\n'], 2⟩, false))) :=
  ⟨rfl, enter_multiline_accept_iff ⟨false, some 2⟩ (fun _ => true)
    ⟨['x', '\n'], 2⟩ rfl⟩

/-- Claim C5: when the Enter accept path runs (single-line handler, or the
multi-line accept branch) and validation of the buffer content fails, the
buffer text and cursor are left unmodified and nothing is submitted. -/
theorem validation_failure_preserves_buffer (validate : List Char → Bool)
    (b : Buffer) (h : validate b.text = false) :
    acceptHandlerStep validate b = (b, false) ∧
    ∀ python_input : PythonInput, python_input.paste_mode = false →
      multilineAcceptCond python_input b = true →
      enterMultiline python_input validate b = (b, false) := by
  have h1 : acceptHandlerStep validate b = (b, false) := by
    unfold acceptHandlerStep
    rw [if_neg (by simp [h])]
  refine ⟨h1, ?_⟩
  intro python_input hp hcond
  simp [enterMultiline, hp, hcond, h1]

/-- Witness for `validation_failure_preserves_buffer`: always-failing
validator, buffer `"x"`, required blank lines 1. -/
theorem validation_failure_preserves_buffer_witness :
    (fun _ : List Char => false) (⟨['x'], 1⟩ : Buffer).text = false ∧
    (acceptHandlerStep (fun _ => false) ⟨['x'], 1⟩ = (⟨['x'], 1⟩, false) ∧
      ∀ python_input : PythonInput, python_input.paste_mode = false →
        multilineAcceptCond python_input ⟨['x'], 1⟩ = true →
        enterMultiline python_input (fun _ => false) ⟨['x'], 1⟩ =
          (⟨['x'], 1⟩, false)) :=
  ⟨rfl, validation_failure_preserves_buffer (fun _ => false) ⟨['x'], 1⟩ rfl⟩

/-- Claim C6: for every pattern string, a second call to `preceding_text`
returns the memoized condition (equal condition, hence identical matching
behaviour) without compiling again, and likewise for `following_text`; the
two constructors use separate caches - each call leaves the other cache
untouched, so caching in one never affects lookups in the other. -/
theorem predicate_cache_memoization (pattern : String) (st : MatchCaches) :
    ((preceding_text pattern (preceding_text pattern st).caches).cond =
        (preceding_text pattern st).cond ∧
      (preceding_text pattern (preceding_text pattern st).caches).compiled =
        false) ∧
    ((following_text pattern (following_text pattern st).caches).cond =
        (following_text pattern st).cond ∧
      (following_text pattern (following_text pattern st).caches).compiled =
        false) ∧
    (preceding_text pattern st).caches.following = st.following ∧
    (following_text pattern st).caches.preceding = st.preceding := by
  refine ⟨?_, ?_, ?_, ?_⟩
  · unfold preceding_text
    cases h : lookupCache pattern st.preceding with
    | some m => simp [h]
    | none => simp [h, lookupCache]
  · unfold following_text
    cases h : lookupCache pattern st.following with
    | some m => simp [h]
    | none => simp [h, lookupCache]
  · unfold preceding_text
    cases h : lookupCache pattern st.preceding with
    | some m => simp [h]
    | none => simp [h]
  · unfold following_text
    cases h : lookupCache pattern st.following with
    | some m => simp [h]
    | none => simp [h]

/-- Claim C8: with no completion menu open and the only-option-on-tab flag
enabled, tab computes the full completion list; a sole candidate is applied
directly (no menu), while zero or several candidates open the completion menu
with the common prefix inserted. -/
theorem tab_only_option_dispatch (completions : List (List Char)) :
    tabDispatchNoMenu true false completions =
      some (tab_only_option completions) ∧
    ((∃ c, completions = [c] ∧
        tab_only_option completions = TabOutcome.applyCompletion c) ∨
      (completions.length ≠ 1 ∧
        tab_only_option completions = TabOutcome.startCompletion true)) := by
  refine ⟨rfl, ?_⟩
  match completions with
  | [] => exact Or.inr ⟨by simp, rfl⟩
  | [c] => exact Or.inl ⟨c, rfl, rfl⟩
  | c₁ :: c₂ :: rest =>
    refine Or.inr ⟨by simp, ?_⟩
    unfold tab_only_option
    rw [if_neg (by simp)]

/-- Claim C9, counterexample. The claim says no exception from introspection
ever propagates out of the handler, but `is_callable` and its callers wrap the
jedi query in no try/except: with an introspection function that raises, the
handler's auto-parenthesis step yields the exception itself, not the
unchanged buffer. -/
theorem is_callable_error_claim_cex :
    maybeAppendParens (fun _ => Except.error ()) true ['f'] ['g'] ⟨['f'], 1⟩ =
      Except.error () ∧
    maybeAppendParens (fun _ => Except.error ()) true ['f'] ['g'] ⟨['f'], 1⟩ ≠
      Except.ok ⟨['f'], 1⟩ :=
  ⟨rfl, fun h => Except.noConfusion h⟩

/-- Claim C9, amended: an introspection query that finds no matching symbol
yields `None`, which is treated as not callable (no parentheses appended, the
buffer is returned unchanged); but an exception raised by the introspection
call is not caught anywhere in this component and propagates out of the key
handler. -/
theorem is_callable_failure_handling
    (complete : List Char → Except Unit (List JediCompletion))
    (t w : List Char) (b : Buffer) (e : Unit) :
    (is_callable complete t = Except.ok none →
      is_callable complete w = Except.ok none →
      maybeAppendParens complete true t w b = Except.ok b) ∧
    (complete t = Except.error e →
      maybeAppendParens complete true t w b = Except.error e) := by
  constructor
  · intro h1 h2
    simp [maybeAppendParens, h1, h2, truthy]
  · intro h
    simp [maybeAppendParens, is_callable, h]

/-- Witness for `is_callable_failure_handling`: an introspection function that
finds nothing (buffer untouched, no parens) and one that raises (the error
propagates). -/
theorem is_callable_failure_handling_witness :
    (is_callable (fun _ => Except.ok []) ['f'] = Except.ok none ∧
      is_callable (fun _ => Except.ok []) ['g'] = Except.ok none ∧
      maybeAppendParens (fun _ => Except.ok []) true ['f'] ['g'] ⟨['f'], 1⟩ =
        Except.ok ⟨['f'], 1⟩) ∧
    ((fun _ : List Char =>
        (Except.error () : Except Unit (List JediCompletion))) ['f'] =
        Except.error () ∧
      maybeAppendParens (fun _ => Except.error ()) true ['f'] ['g'] ⟨['f'], 1⟩ =
        Except.error ()) :=
  ⟨⟨rfl, rfl,
      (is_callable_failure_handling (fun _ => Except.ok []) ['f'] ['g']
        ⟨['f'], 1⟩ ()).1 rfl rfl⟩,
    ⟨rfl,
      (is_callable_failure_handling (fun _ => Except.error ()) ['f'] ['g']
        ⟨['f'], 1⟩ ()).2 rfl⟩⟩

end PtPython
